import Mathlib

/-!
Shallow embedding of the autorpc bidirectional RPC runtime.

The embedding models the two live source variants of the package:
the handler variant (autorpc.go, integer call ids) and the service
variant (service.go / builder.go, string call ids).  The two variants
share the dispatch-loop structure, the promise registry and the remote
promise resolve / reject logic line for line; the embedding therefore
uses one set of definitions (with integer call ids, as in autorpc.go)
and the doc comments cite the corresponding lines of both files.
The legacy variant kept under src/unnamed/part_000 is modelled
separately where a claim refers to it (the method return-shape check).

Go `error` values are modelled by the GoError inductive; the dynamic
values flowing through encoding/json are modelled by GoValue, with
json.RawMessage as a plain string.  Calls into user callbacks
(promise completion functions) are recorded as events in a trace
instead of being executed, so that ordering properties of removal
versus completion can be stated.
-/

namespace AutoRPC

/-- Model of json.RawMessage: an already-encoded JSON fragment. -/
abbrev RawMessage := String

/-- The Go types that occur in the API descriptions exercised here. -/
inductive GoType where
  | tInt
  | tStr
  | tBool
  | tError
  | tOther (name : String)
  deriving DecidableEq

/-- Dynamic Go values (the `interface{}` payloads seen by encoding/json).
vError carries a non-nil error's message; vNull is a nil interface value;
vUnencodable stands for a value (channel, function, ...) that
json.Marshal refuses to encode. -/
inductive GoValue where
  | vInt (n : Int)
  | vStr (s : String)
  | vBool (b : Bool)
  | vNull
  | vError (msg : String)
  | vUnencodable (reason : String)
  deriving DecidableEq

/-- reflect.TypeOf on the modelled values. -/
def typeOf : GoValue → GoType
  | .vInt _ => .tInt
  | .vStr _ => .tStr
  | .vBool _ => .tBool
  | .vNull => .tOther "nil"
  | .vError _ => .tError
  | .vUnencodable r => .tOther r

/-- The zero value of a Go type, as produced by reflect.New(t).Elem()
in RemotePromise.reject (autorpc.go lines 55-64, service.go 77-86). -/
def zeroValue : GoType → GoValue
  | .tInt => .vInt 0
  | .tStr => .vStr ""
  | .tBool => .vBool false
  | .tError => .vNull
  | .tOther _ => .vNull

/-- Simplified model of json.Marshal restricted to the scalar values
used in this development.  Faithful in the one respect the claims
need: it fails exactly on vUnencodable values. -/
def marshal : GoValue → Except String RawMessage
  | .vInt n => .ok (toString n)
  | .vStr s => .ok ("\"" ++ s ++ "\"")
  | .vBool true => .ok "true"
  | .vBool false => .ok "false"
  | .vNull => .ok "null"
  | .vError _ => .ok "\x7b\x7d"
  | .vUnencodable reason => .error ("json: unsupported type: " ++ reason)

/-- Digit-list accumulator for the integer parser (kept structural so
that the kernel can evaluate it). -/
def parseNatChars : List Char → Nat → Option Nat
  | [], acc => some acc
  | c :: rest, acc =>
    if c.isDigit then parseNatChars rest (acc * 10 + (c.toNat - '0'.toNat))
    else none

/-- Parse a JSON integer literal. -/
def parseIntStr (s : String) : Option Int :=
  match s.data with
  | [] => none
  | '-' :: rest =>
    match rest with
    | [] => none
    | _ => (parseNatChars rest 0).map (fun n => -(n : Int))
  | cs => (parseNatChars cs 0).map (fun n => (n : Int))

/-- Simplified model of json.Unmarshal into a freshly allocated value of
the given type (reflect.New(t); json.Unmarshal(fragment, ptr)). -/
def unmarshal : GoType → RawMessage → Except String GoValue
  | .tInt, s =>
    match parseIntStr s with
    | some n => .ok (.vInt n)
    | none => .error ("cannot unmarshal " ++ s ++ " into value of type int")
  | .tStr, s =>
    if s.data.length ≥ 2 ∧ s.data.head? = some '"' ∧ s.data.getLast? = some '"' then
      .ok (.vStr ⟨(s.data.drop 1).dropLast⟩)
    else .error ("cannot unmarshal " ++ s ++ " into value of type string")
  | .tBool, s =>
    if s = "true" then .ok (.vBool true)
    else if s = "false" then .ok (.vBool false)
    else .error ("cannot unmarshal " ++ s ++ " into value of type bool")
  | .tError, s => .error ("cannot unmarshal " ++ s ++ " into value of type error")
  | .tOther name, s =>
    if s = "null" then .ok .vNull
    else .error ("cannot unmarshal " ++ s ++ " into value of type " ++ name)

/-- RPCError (errors.go lines 67-70): structured protocol error with a
message and an optional underlying cause. -/
structure RPCError where
  err : String
  actualErr : Option String
  deriving DecidableEq

/-- RPCError.Error (errors.go lines 72-77): an empty Err formats the
underlying cause after the fixed prefix, otherwise the message is
prefixed with "autorpc: ". -/
def RPCError.message (e : RPCError) : String :=
  if e.err = "" then "autorpc: internal error " ++ e.actualErr.getD "<nil>"
  else "autorpc: " ++ e.err

/-- Rendering of the modelled Go types (reflect.Type.String). -/
def GoType.str : GoType → String
  | .tInt => "int"
  | .tStr => "string"
  | .tBool => "bool"
  | .tError => "error"
  | .tOther n => n

/-- A Go error value as it flows through the dispatch code: a plain
user error (errors.New / a method's own error), a structured RPCError,
or the ValueTypeMismatchError of errors.go lines 48-55. -/
inductive GoError where
  | user (msg : String)
  | rpcErr (e : RPCError)
  | valueTypeMismatch (expected received : GoType)
  deriving DecidableEq

/-- The string produced by calling .Error() on the error value. -/
def GoError.message : GoError → String
  | .user m => m
  | .rpcErr e => e.message
  | .valueTypeMismatch exp rcv =>
    "autorpc: value provided to Handle does not match type of value in " ++
      "Connection API (wanted " ++ exp.str ++ " but got " ++ rcv.str ++ ")"

/-- strings.HasPrefix, on the character lists (structural, so the
kernel can evaluate it). -/
def strHasPre (s pre : String) : Bool :=
  pre.data.isPrefixOf s.data

/-- strings.TrimPrefix. -/
def stringTrimStart (s pre : String) : String :=
  if strHasPre s pre then ⟨s.data.drop pre.data.length⟩ else s

/-- rpcCall (autorpc.go lines 84-88, service.go 19-23): outbound request
envelope. -/
structure RpcCall where
  callID : Int
  args : List RawMessage
  funcName : String
  deriving DecidableEq

/-- rpcCallReturn (autorpc.go lines 90-94, service.go 25-29): reply
envelope; error = "" and data = [] stand for the omitempty-omitted
fields. -/
structure RpcCallReturn where
  callID : Int
  error : String
  data : List GoValue
  deriving DecidableEq

/-- rpcMessage (autorpc.go lines 96-102, service.go 31-37): the decoded
inbound envelope. -/
structure RpcMessage where
  callID : Int
  funcName : String
  args : List RawMessage
  error : String
  data : List RawMessage
  deriving DecidableEq

/-- rpcMessage.isCall (autorpc.go 104-106, service.go 39-41). -/
def RpcMessage.isCall (m : RpcMessage) : Bool := m.funcName ≠ ""

/-- rpcMessage.isResponse (autorpc.go 108-110, service.go 43-45). -/
def RpcMessage.isResponse (m : RpcMessage) : Bool := m.funcName = ""

/-- rpcMessage.isRPCError (autorpc.go 112-114, service.go 47-49). -/
def RpcMessage.isRPCError (m : RpcMessage) : Bool :=
  strHasPre m.error "autorpc:"

/-- A pending call record: the stored return types of the awaited
completion (RemotePromise in autorpc.go lines 14-20, remotePromise in
service.go 51-55).  The completion function itself is not stored;
its invocations are recorded as trace events. -/
structure RemotePromise where
  returnTypes : List GoType
  deriving DecidableEq

/-- The promise registry: handler.pendingCalls map[int]*RemotePromise
(autorpc.go line 77) / service.pendingCalls sync.Map (service.go 138),
as an association list keyed by call id. -/
abbrev Registry := List (Int × RemotePromise)

/-- Map lookup on the registry. -/
def regLookup : Registry → Int → Option RemotePromise
  | [], _ => none
  | (k, p) :: rest, id => if k = id then some p else regLookup rest id

/-- Map delete on the registry. -/
def regErase : Registry → Int → Registry
  | [], _ => []
  | (k, p) :: rest, id =>
    if k = id then regErase rest id else (k, p) :: regErase rest id

/-- Observable actions performed by the dispatch code, in program
order: registry deletion, completion-callback invocation (with the
values the callback receives), and envelope writes to the transport. -/
inductive Event where
  | removed (id : Int)
  | completedOk (returns : List GoValue)
  | completedErr (returns : List GoValue) (errMsg : String)
  | wroteReturn (env : RpcCallReturn)
  | wroteCall (env : RpcCall)
  deriving DecidableEq

/-- Outcome of an installed inbound handler
(func([]json.RawMessage) ([]interface{}, error)); panicked models the
Go panic in the should-never-happen branch. -/
inductive FnOutcome where
  | ret (data : List GoValue) (err : Option GoError)
  | panicked (msg : String)

/-- An installed inbound handler. -/
abbrev FnHandler := List RawMessage → FnOutcome

/-- Result of decoder.Decode at the top of the dispatch loop: EOF, a
decode failure (carrying whatever call id was partly decoded and the
decode error's message), or a decoded message. -/
inductive DecodeResult where
  | eof
  | fail (seenId : Int) (decodeMsg : String)
  | ok (msg : RpcMessage)

/-- The value returned by one dispatch-loop iteration. -/
inductive HandleResult where
  | ok
  | eof
  | err (e : GoError)
  | panicked (msg : String)
  deriving DecidableEq

/-- Full outcome of one dispatch-loop iteration: the trace of
observable actions, the registry afterwards, and the returned value. -/
structure HandleOutput where
  events : List Event
  registry : Registry
  ret : HandleResult
  deriving DecidableEq

/-- Map lookup in the fnHandlers table. -/
def lookupFn : List (String × FnHandler) → String → Option FnHandler
  | [], _ => none
  | (k, f) :: rest, name => if k = name then some f else lookupFn rest name

/-- The unmarshal loop inside RemotePromise.resolve (autorpc.go lines
42-49, service.go 64-71): decode each data fragment into the stored
return type, failing with the RPCError built there.  The final case is
unreachable because resolve checks the lengths first. -/
def resolveDecode : List GoType → List RawMessage → Nat → Except GoError (List GoValue)
  | [], _, _ => .ok []
  | t :: ts, d :: ds, j =>
    match unmarshal t d with
    | .error e =>
      .error (.rpcErr ⟨"error unmarshaling input " ++ toString j ++ ": " ++ e, none⟩)
    | .ok v =>
      match resolveDecode ts ds (j + 1) with
      | .error e => .error e
      | .ok vs => .ok (v :: vs)
  | _ :: _, [], _ => .error (.rpcErr ⟨"missing return", none⟩)

/-- RemotePromise.resolve (autorpc.go lines 32-53, service.go 57-75):
a data list whose length differs from the stored return types yields
the RPCError "got wrong num of returns" and the completion is NOT
called; otherwise each fragment is decoded and, on success, the
completion is called with the decoded values and a nil error (the
caller of resolve emits the corresponding trace event).  The vestigial
rebinding of handler.r / handler.w at the top of the autorpc.go
variant touches no state this development models. -/
def resolve (returnTypes : List GoType) (data : List RawMessage) :
    Except GoError (List GoValue) :=
  if data.length ≠ returnTypes.length then
    .error (.rpcErr ⟨"got wrong num of returns", none⟩)
  else resolveDecode returnTypes data 0

/-- handler.Handle (autorpc.go lines 143-200) = service.handle
(service.go lines 273-331); the two differ only in the spelling of
call ids (int vs decimal string) and the registry container.
Parameters: the installed handler table, whether the transport write
fails (none = writes succeed), the decode outcome, and the registry.
Branches in source order: decode failure, isCall, isResponse,
isRPCError, fallthrough. -/
def handle (fnHandlers : List (String × FnHandler)) (writeErr : Option String)
    (input : DecodeResult) (pendingCalls : Registry) : HandleOutput :=
  match input with
  | .eof => ⟨[], pendingCalls, .eof⟩
  | .fail seenId decodeMsg =>
    ⟨[.wroteReturn ⟨seenId, "autorpc: internal error", []⟩], pendingCalls,
      .err (.user decodeMsg)⟩
  | .ok msg =>
    if msg.isCall then
      match lookupFn fnHandlers msg.funcName with
      | none =>
        ⟨[.wroteReturn ⟨msg.callID, RPCError.message ⟨"function not found", none⟩, []⟩],
          pendingCalls, .err (.rpcErr ⟨"function not found", none⟩)⟩
      | some fn =>
        match fn msg.args with
        | .panicked p => ⟨[], pendingCalls, .panicked p⟩
        | .ret result err =>
          let errString := match err with
            | some e => e.message
            | none => ""
          let sentData := match err with
            | some _ => []
            | none => result
          let events := [Event.wroteReturn ⟨msg.callID, errString, sentData⟩]
          match err with
          | some e => ⟨events, pendingCalls, .err e⟩
          | none =>
            match writeErr with
            | some w => ⟨events, pendingCalls, .err (.rpcErr ⟨"", some w⟩)⟩
            | none => ⟨events, pendingCalls, .ok⟩
    else if msg.isResponse then
      match regLookup pendingCalls msg.callID with
      | none => ⟨[], pendingCalls, .ok⟩
      | some promise =>
        let reg := regErase pendingCalls msg.callID
        if msg.error ≠ "" then
          ⟨[.removed msg.callID,
            .completedErr (promise.returnTypes.map zeroValue) msg.error], reg, .ok⟩
        else
          match resolve promise.returnTypes msg.data with
          | .ok values => ⟨[.removed msg.callID, .completedOk values], reg, .ok⟩
          | .error e => ⟨[.removed msg.callID], reg, .err e⟩
    else if msg.isRPCError then
      match regLookup pendingCalls msg.callID with
      | none =>
        ⟨[], pendingCalls,
          .err (.rpcErr ⟨stringTrimStart msg.error "autorpc: ", none⟩)⟩
      | some promise =>
        ⟨[.completedErr (promise.returnTypes.map zeroValue) msg.error,
          .removed msg.callID],
          regErase pendingCalls msg.callID,
          .err (.rpcErr ⟨stringTrimStart msg.error "autorpc: ", none⟩)⟩
    else ⟨[], pendingCalls, .ok⟩

/-- handler.newCall (autorpc.go lines 116-125) = service.newCall
(service.go lines 184-192): draw ids from the random source until one
is not pending, then store the promise under it.  The draws list is
the prefix of values produced by rand.Int() (always non-negative, zero
included); none models only the case where the modelled prefix is
exhausted, which the unbounded Go loop never reports. -/
def newCall (draws : List Int) (reg : Registry) (promise : RemotePromise) :
    Option (Int × Registry) :=
  match draws with
  | [] => none
  | d :: rest =>
    match regLookup reg d with
    | some _ => newCall rest reg promise
    | none => some (d, (d, promise) :: reg)

/-- Outcome of one outbound proxy invocation. -/
structure CallOutput where
  events : List Event
  registry : Registry
  deriving DecidableEq

/-- The argument-marshalling loop of the outbound path (service.go
lines 202-211, autorpc.go 307-316): encode the captured arguments in
order, stopping at the first failure. -/
def marshalArgs : List GoValue → Except String (List RawMessage)
  | [] => .ok []
  | v :: rest =>
    match marshal v with
    | .error e => .error e
    | .ok b =>
      match marshalArgs rest with
      | .error e => .error e
      | .ok bs => .ok (b :: bs)

/-- service.callRemoteFunc (service.go lines 194-226), identical in
control flow to the generated proxy closure of autorpc.go lines
304-333: marshal the captured arguments (the final completion argument
is not part of args here; its invocations appear as completion
events); on a marshal failure reject immediately and stop; otherwise
allocate a call id, write the request envelope, and on a write failure
delete the fresh registry entry and reject. -/
def callRemoteFunc (draws : List Int) (writeErr : Option String) (fn : String)
    (args : List GoValue) (returnTypes : List GoType) (reg : Registry) : CallOutput :=
  match marshalArgs args with
  | .error e => ⟨[.completedErr (returnTypes.map zeroValue) e], reg⟩
  | .ok argVals =>
    match newCall draws reg ⟨returnTypes⟩ with
    | none => ⟨[], reg⟩
    | some (callID, reg1) =>
      match writeErr with
      | some w =>
        ⟨[.wroteCall ⟨callID, argVals, fn⟩, .removed callID,
          .completedErr (returnTypes.map zeroValue) w], regErase reg1 callID⟩
      | none => ⟨[.wroteCall ⟨callID, argVals, fn⟩], reg1⟩

/-- A method of the API description, as reflected at build time: its
name, parameter types (receiver excluded), return types, and the user
body mapping decoded arguments to return values. -/
structure APIMethod where
  name : String
  inTypes : List GoType
  outTypes : List GoType
  impl : List GoValue → List GoValue

/-- The argument-decoding loop of the installed inbound handlers
(autorpc.go lines 359-368, builder.go 154-163): decode fragment j into
parameter type j, wrapping failures in RPCError{"internal error", cause}.
The final case is unreachable behind the arity check. -/
def decodeArgs : List GoType → List RawMessage → Nat → Except GoError (List GoValue)
  | [], _, _ => .ok []
  | t :: ts, a :: rest, j =>
    match unmarshal t a with
    | .error e =>
      .error (.rpcErr ⟨"internal error",
        some ("error unmarshaling input " ++ toString j ++ ": " ++ e)⟩)
    | .ok v =>
      match decodeArgs ts rest (j + 1) with
      | .error e => .error e
      | .ok vs => .ok (v :: vs)
  | _ :: _, [], _ => .error (.rpcErr ⟨"internal error", some "missing argument"⟩)

/-- The inbound handler installed for one method by CreateHandler
(autorpc.go lines 354-390; builder.go lines 149-195 adds
connection-scoped parameter injection, not modelled here): check the
wire arity, decode the arguments, call the method; when the method's
declared last return is error-typed, split the returns into data and
error, panicking if the last returned value is neither an error nor
nil. -/
def makeFnHandler (m : APIMethod) : FnHandler := fun args =>
  if args.length ≠ m.inTypes.length then
    .ret [] (some (.rpcErr ⟨"internal error", some "method input length does not match"⟩))
  else
    match decodeArgs m.inTypes args 0 with
    | .error e => .ret [] (some e)
    | .ok inVals =>
      let out := m.impl inVals
      if m.outTypes.length > 0 ∧ m.outTypes.getLast? = some .tError then
        match out.getLast? with
        | some (.vError emsg) => .ret out.dropLast (some (.user emsg))
        | some .vNull => .ret out.dropLast none
        | _ => .panicked ("last return is not of type error in function " ++ m.name)
      else .ret out none

/-- The method loop of the current CreateHandler (autorpc.go lines
338-392) and of serviceBuilder.buildAPI (builder.go lines 112-197):
every method of the API description is installed; the loop has no
error return and performs no validation of the method's return
shape (it only computes whether the last return is error-typed). -/
def createHandlerMethods (methods : List APIMethod) : List (String × FnHandler) :=
  methods.map (fun m => (m.name, makeFnHandler m))

/-- The configuration errors of the legacy variant's method check. -/
inductive LegacyConfigError where
  | apiFuncTooManyOutputs (name : String) (numOutputs : Nat)
  | apiFuncNotErrorOutput (name : String) (secondOut : GoType)
  deriving DecidableEq

/-- The method return-shape check of the legacy CreateHandler
(src/unnamed/part_000 lines 304-316): more than two returns is
rejected, and exactly two returns whose second is not assignable to
error is rejected; everything else is accepted. -/
def legacyMethodCheck (name : String) (outTypes : List GoType) :
    Option LegacyConfigError :=
  if outTypes.length > 2 then some (.apiFuncTooManyOutputs name outTypes.length)
  else
    match outTypes with
    | [_, t1] => if t1 = .tError then none else some (.apiFuncNotErrorOutput name t1)
    | _ => none

/-- One iteration of the HandleConnection loop as observed from
outside: handle returned nil (recording whether the handling flag is
still set afterwards, StopHandling may have cleared it from within a
handler), or handle returned a non-nil error. -/
inductive IterOutcome where
  | ok (stillHandling : Bool)
  | fail
  deriving DecidableEq

/-- The per-connection value mapping (the sync.Map stored in
service.connValues for one connection). -/
abbrev ValMap := List (GoType × GoValue)

/-- How HandleConnection ended: whether it returned a non-nil error,
and the per-connection value mapping left in the service afterwards
(none = deleted by finalizeConnection). -/
structure ConnEnd where
  errReturned : Bool
  connValues : Option ValMap
  deriving DecidableEq

/-- service.HandleConnection's dispatch loop (service.go lines
165-173) with finalizeConnection (lines 179-182): while the handling
flag is set, run one iteration; a non-nil error finalizes the
connection (dropping connValues and connDecoders) and returns the
error; when the flag is cleared the loop returns nil WITHOUT
finalizing.  vals is the mapping contents at exit; the outcome list is
the (finite, in any terminating run) sequence of iteration results;
none models only exhaustion of that modelled sequence. -/
def handleConnectionLoop (vals : ValMap) : List IterOutcome → Option ConnEnd
  | [] => none
  | .fail :: _ => some ⟨true, none⟩
  | .ok false :: _ => some ⟨false, some vals⟩
  | .ok true :: rest => handleConnectionLoop vals rest

/-- One field of the API description struct: its name, autorpc tag,
type, and whether it is exported (reflect CanSet). -/
structure APIField where
  name : String
  tag : String
  fieldType : GoType
  exported : Bool
  deriving DecidableEq

/-- Configuration errors of the field scan in CreateHandler. -/
inductive ConfigError where
  | multipleFields (tag prevName curName : String)
  | unexportedField (name : String)
  deriving DecidableEq

/-- The field scan of CreateHandler (autorpc.go lines 225-250):
locate the value-tagged and remote-tagged fields, rejecting duplicate
tags and unexported tagged fields.  Returns the (index, field) of the
value and remote fields, when present. -/
def scanLoop : List APIField → Nat → Option (Nat × APIField) →
    Option (Nat × APIField) →
    Except ConfigError (Option (Nat × APIField) × Option (Nat × APIField))
  | [], _, vf, rf => .ok (vf, rf)
  | f :: rest, i, vf, rf =>
    if f.tag = "value" then
      match vf with
      | some (_, prev) => .error (.multipleFields "value" prev.name f.name)
      | none =>
        if f.exported then scanLoop rest (i + 1) (some (i, f)) rf
        else .error (.unexportedField f.name)
    else if f.tag = "remote" then
      match rf with
      | some (_, prev) => .error (.multipleFields "remote" prev.name f.name)
      | none =>
        if f.exported then scanLoop rest (i + 1) vf (some (i, f))
        else .error (.unexportedField f.name)
    else scanLoop rest (i + 1) vf rf

/-- The current values of the API description's fields, one per field. -/
abbrev APIState := List GoValue

/-- The setValue function synthesized by CreateHandler (autorpc.go
lines 252-264): with no value-tagged field it is
func(interface{}) error { return nil } — it succeeds on every
argument and assigns nothing; with a value-tagged field it checks the
dynamic type and assigns into that field. -/
def handlerSetValue (vf : Option (Nat × APIField)) (v : GoValue) (st : APIState) :
    Except GoError APIState :=
  match vf with
  | none => .ok st
  | some (i, f) =>
    if f.fieldType ≠ typeOf v then
      .error (.valueTypeMismatch f.fieldType (typeOf v))
    else .ok (st.set i v)

/-- True on the events that stand for an invocation of a pending
call's completion callback. -/
def isCompletionEvent : Event → Bool
  | .completedOk _ => true
  | .completedErr _ _ => true
  | _ => false

/-- Scans a trace left to right: true iff every completion-callback
event is strictly preceded by the removal of the given call id. -/
def removalPrecedes (id : Int) : List Event → Bool
  | [] => true
  | .removed i :: rest => if i = id then true else removalPrecedes id rest
  | e :: rest => if isCompletionEvent e then false else removalPrecedes id rest

/-- Deleting a key from the registry makes it unfindable. -/
theorem regLookup_erase (reg : Registry) (id : Int) :
    regLookup (regErase reg id) id = none := by
  induction reg with
  | nil => rfl
  | cons kv rest ih =>
    obtain ⟨k, p⟩ := kv
    simp only [regErase]
    by_cases h : k = id
    · simpa [h] using ih
    · simpa [regLookup, h] using ih

/-- A non-call message is a response: isResponse tests exactly the
negation of isCall's condition, which is why the isRPCError branch of
the dispatch loop can never be reached. -/
theorem isResponse_of_not_isCall (m : RpcMessage) (h : m.isCall = false) :
    m.isResponse = true := by
  simp only [RpcMessage.isCall, decide_not, Bool.not_eq_false'] at h
  simpa [RpcMessage.isResponse] using h

/-- A concrete Protocol Error envelope: empty f, non-empty e beginning
with "autorpc:". -/
def protoErrMsg : RpcMessage := ⟨7, "", [], "autorpc: peer out of sync", []⟩

/-- A registry holding the matching pending call for protoErrMsg. -/
def protoErrReg : Registry := [(7, ⟨[.tInt]⟩)]

/-- C1: evaluating the dispatch loop at a Protocol Error envelope
(empty f, e prefixed "autorpc:") with a matching pending call.  The
envelope satisfies isRPCError, but because isResponse (f == "") is
tested before isRPCError, it takes the Response branch: the pending
call is removed and rejected, yet the iteration returns ok (a nil
error) to the session caller — not the non-nil protocol error that the
claim, and the code's own unreachable isRPCError branch, prescribe. -/
theorem handle_protocolError_returns_ok_bug :
    protoErrMsg.isRPCError = true ∧
    handle [] none (.ok protoErrMsg) protoErrReg =
      ⟨[.removed 7, .completedErr [.vInt 0] "autorpc: peer out of sync"], [], .ok⟩ := by
  decide

/-- C2 counterexample: a response for a pending call awaiting two
returns arrives carrying one datum.  The registry entry is removed and
the iteration returns the protocol error "got wrong num of returns",
but the trace contains no completion event: the completion callback is
never invoked, contradicting the claim that it is invoked (with a
protocol error) exactly once. -/
theorem handle_lengthMismatch_no_completion :
    handle [] none (.ok ⟨5, "", [], "", ["1"]⟩) [(5, ⟨[.tInt, .tInt]⟩)] =
      ⟨[.removed 5], [], .err (.rpcErr ⟨"got wrong num of returns", none⟩)⟩ ∧
    (handle [] none (.ok ⟨5, "", [], "", ["1"]⟩)
        [(5, ⟨[.tInt, .tInt]⟩)]).events.any isCompletionEvent = false := by
  decide

/-- C2 amended: when a response arrives for a pending call whose d
list length differs from the stored return-type list, the registry
entry is removed and the dispatch iteration returns the protocol error
"got wrong num of returns" to the session caller; the completion
callback is not invoked (the trace holds only the removal). -/
theorem handle_lengthMismatch_removes_and_errors
    (fnH : List (String × FnHandler)) (writeErr : Option String)
    (msg : RpcMessage) (reg : Registry) (promise : RemotePromise)
    (hresp : msg.funcName = "") (herr : msg.error = "")
    (hpend : regLookup reg msg.callID = some promise)
    (hlen : msg.data.length ≠ promise.returnTypes.length) :
    handle fnH writeErr (.ok msg) reg =
      ⟨[.removed msg.callID], regErase reg msg.callID,
        .err (.rpcErr ⟨"got wrong num of returns", none⟩)⟩ := by
  simp [handle, RpcMessage.isCall, RpcMessage.isResponse, hresp, herr, hpend,
    resolve, hlen]

/-- Witness for the C2 amended theorem at a concrete input. -/
theorem handle_lengthMismatch_removes_and_errors_witness :
    handle [] none (.ok ⟨6, "", [], "", ["1", "2", "3"]⟩) [(6, ⟨[.tStr]⟩)] =
      ⟨[.removed 6], [], .err (.rpcErr ⟨"got wrong num of returns", none⟩)⟩ :=
  handle_lengthMismatch_removes_and_errors [] none ⟨6, "", [], "", ["1", "2", "3"]⟩
    [(6, ⟨[.tStr]⟩)] ⟨[.tStr]⟩ rfl rfl rfl (by decide)

/-- C3: whenever a dispatch-loop iteration invokes a pending call's
completion callback (resolve or reject, for a Response envelope or a
Protocol Error envelope — the latter is routed through the Response
branch), the record has already been deleted from the registry: the
removal event strictly precedes every completion event in the trace,
and the registry visible after the deletion (the one a reentrant
outbound call would consult) no longer holds the id. -/
theorem removal_precedes_completion
    (fnH : List (String × FnHandler)) (writeErr : Option String)
    (msg : RpcMessage) (reg : Registry)
    (h : (handle fnH writeErr (.ok msg) reg).events.any isCompletionEvent = true) :
    removalPrecedes msg.callID (handle fnH writeErr (.ok msg) reg).events = true ∧
    regLookup (handle fnH writeErr (.ok msg) reg).registry msg.callID = none := by
  cases hc : msg.isCall with
  | true =>
    exfalso
    simp only [handle, hc, if_true] at h
    cases hfn : lookupFn fnH msg.funcName with
    | none =>
      simp only [hfn] at h
      simp [isCompletionEvent] at h
    | some fn =>
      simp only [hfn] at h
      cases hout : fn msg.args with
      | panicked p =>
        simp only [hout] at h
        simp at h
      | ret result err =>
        simp only [hout] at h
        cases err with
        | none => cases writeErr <;> simp [isCompletionEvent] at h
        | some e => simp [isCompletionEvent] at h
  | false =>
    have hresp : msg.isResponse = true := isResponse_of_not_isCall msg hc
    simp only [handle, hc, hresp, Bool.false_eq_true, if_false, if_true] at h ⊢
    cases hp : regLookup reg msg.callID with
    | none =>
      simp only [hp] at h
      simp at h
    | some promise =>
      simp only [hp] at h ⊢
      rcases eq_or_ne msg.error "" with he | he
      · have hne : ¬(msg.error ≠ "") := by simp [he]
        rw [if_neg hne] at h ⊢
        cases hr : resolve promise.returnTypes msg.data with
        | ok values =>
          simp only [hr] at h ⊢
          exact ⟨by simp [removalPrecedes], regLookup_erase reg msg.callID⟩
        | error e =>
          simp only [hr] at h ⊢
          exact ⟨by simp [removalPrecedes], regLookup_erase reg msg.callID⟩
      · rw [if_pos he] at h ⊢
        exact ⟨by simp [removalPrecedes], regLookup_erase reg msg.callID⟩

/-- Witness for C3 at a concrete input: a response carrying a user
error for pending call 9. -/
theorem removal_precedes_completion_witness :
    removalPrecedes 9
      (handle [] none (.ok ⟨9, "", [], "remote failed", []⟩)
        [(9, ⟨[.tBool]⟩)]).events = true ∧
    regLookup
      (handle [] none (.ok ⟨9, "", [], "remote failed", []⟩)
        [(9, ⟨[.tBool]⟩)]).registry 9 = none :=
  removal_precedes_completion [] none ⟨9, "", [], "remote failed", []⟩
    [(9, ⟨[.tBool]⟩)] (by decide)

/-- C4 counterexample: with the random source producing 0 (a value
rand.Int can return: its range is the non-negative int63 values, zero
included) and an empty registry, newCall allocates and returns the
call id 0 — the allocated identifier is not non-zero, refuting the
non-zero half of the claim. -/
theorem newCall_can_return_zero :
    newCall [0] [] ⟨[]⟩ = some (0, [(0, ⟨[]⟩)]) := rfl

/-- C4 amended: every call id returned by newCall is distinct from
every id pending in the registry at allocation time (the loop retries
on collision until an unused draw is found, and stores the promise
under the returned id); the id is one of the random draws, but nothing
guarantees it is non-zero. -/
theorem newCall_fresh_id (draws : List Int) (reg : Registry) (p : RemotePromise)
    (id : Int) (reg1 : Registry) (h : newCall draws reg p = some (id, reg1)) :
    regLookup reg id = none ∧ reg1 = (id, p) :: reg ∧ id ∈ draws := by
  induction draws with
  | nil => simp [newCall] at h
  | cons d rest ih =>
    simp only [newCall] at h
    cases hl : regLookup reg d with
    | some q =>
      rw [hl] at h
      obtain ⟨ha, hb, hm⟩ := ih h
      exact ⟨ha, hb, List.mem_cons_of_mem _ hm⟩
    | none =>
      rw [hl] at h
      simp only [Option.some.injEq, Prod.mk.injEq] at h
      obtain ⟨h1, h2⟩ := h
      subst h1
      exact ⟨hl, h2.symm, by simp⟩

/-- Witness for the C4 amended theorem: the first draw collides with
the pending id 3, the second draw 8 is fresh and is returned. -/
theorem newCall_fresh_id_witness :
    regLookup [(3, ⟨[]⟩)] 8 = none ∧
    ([(8, ⟨[.tInt]⟩), (3, ⟨[]⟩)] : Registry) =
      (8, (⟨[.tInt]⟩ : RemotePromise)) :: [(3, ⟨[]⟩)] ∧
    (8 : Int) ∈ [3, 8] :=
  newCall_fresh_id [3, 8] [(3, ⟨[]⟩)] ⟨[.tInt]⟩ 8
    [(8, ⟨[.tInt]⟩), (3, ⟨[]⟩)] (by decide)

/-- A method whose return list has an error-typed return in a
non-final position — a shape the claim says construction rejects. -/
def badReturnsMethod : APIMethod :=
  ⟨"Bad", [], [.tError, .tInt], fun _ => [.vError "boom", .vInt 1]⟩

/-- C5 counterexample: the current CreateHandler (autorpc.go) and
buildAPI (builder.go) perform no return-shape validation — the method
loop has no error return at all — so a method whose first return is an
error and whose last is not is installed as an inbound handler rather
than rejected at construction time. -/
theorem badReturnShape_method_installed :
    (lookupFn (createHandlerMethods [badReturnsMethod]) "Bad").isSome = true := rfl

/-- C5 amended: the current CreateHandler and buildAPI install every
method unconditionally, with no return-shape validation (only the
legacy variant validates: src/unnamed/part_000 rejects a method with
more than two returns, or with exactly two returns whose second is not
of error type, and accepts every other shape). -/
theorem method_return_shape_validation :
    (∀ m : APIMethod,
      lookupFn (createHandlerMethods [m]) m.name = some (makeFnHandler m)) ∧
    (∀ (name : String) (outs : List GoType),
      legacyMethodCheck name outs = none ↔
        (outs.length ≤ 1 ∨ (outs.length = 2 ∧ outs.get? 1 = some .tError))) := by
  constructor
  · intro m
    simp [createHandlerMethods, lookupFn]
  · intro name outs
    match outs with
    | [] => simp [legacyMethodCheck]
    | [t] => simp [legacyMethodCheck]
    | [t0, t1] =>
      by_cases h : t1 = GoType.tError <;>
        simp [legacyMethodCheck, h, List.get?]
    | t0 :: t1 :: t2 :: rest =>
      have h3 : (t0 :: t1 :: t2 :: rest).length > 2 := by
        simp [List.length_cons]
      simp [legacyMethodCheck, h3]

/-- Witness for the C5 amended theorem at a concrete method and a
concrete legacy return shape. -/
theorem method_return_shape_validation_witness :
    lookupFn (createHandlerMethods [⟨"Hello", [.tInt], [.tInt, .tError], fun v => v⟩])
      "Hello" = some (makeFnHandler ⟨"Hello", [.tInt], [.tInt, .tError], fun v => v⟩) ∧
    (legacyMethodCheck "Hello" [.tInt, .tError] = none ↔
      ([GoType.tInt, GoType.tError].length ≤ 1 ∨
        ([GoType.tInt, GoType.tError].length = 2 ∧
          [GoType.tInt, GoType.tError].get? 1 = some .tError))) :=
  ⟨method_return_shape_validation.1 ⟨"Hello", [.tInt], [.tInt, .tError], fun v => v⟩,
    method_return_shape_validation.2 "Hello" [.tInt, .tError]⟩

/-- C6 counterexample: the dispatch loop ends because StopHandling
cleared the handling flag (the last iteration returned nil), so
HandleConnection returns nil without calling finalizeConnection: the
per-connection value mapping survives in the service, contradicting
the claim that it is discarded on either exit path. -/
theorem stopHandling_keeps_connValues :
    handleConnectionLoop [(.tInt, .vInt 42)] [.ok false] =
      some ⟨false, some [(.tInt, .vInt 42)]⟩ := rfl

/-- C6 amended: after HandleConnection returns, the per-connection
value mapping has been discarded exactly when the loop terminated
because an iteration returned an error; when StopHandling cleared the
handling flag, HandleConnection returns nil and the mapping is left in
place. -/
theorem handleConnection_finalize_iff_error (vals : ValMap)
    (outs : List IterOutcome) (e : ConnEnd)
    (h : handleConnectionLoop vals outs = some e) :
    (e.errReturned = true ∧ e.connValues = none) ∨
    (e.errReturned = false ∧ e.connValues = some vals) := by
  induction outs with
  | nil => simp [handleConnectionLoop] at h
  | cons o rest ih =>
    cases o with
    | fail =>
      simp only [handleConnectionLoop, Option.some.injEq] at h
      subst h
      exact Or.inl ⟨rfl, rfl⟩
    | ok b =>
      cases b with
      | false =>
        simp only [handleConnectionLoop, Option.some.injEq] at h
        subst h
        exact Or.inr ⟨rfl, rfl⟩
      | true => exact ih h

/-- Witness for the C6 amended theorem: a run that ends with an
erroring iteration finalizes the connection. -/
theorem handleConnection_finalize_iff_error_witness :
    ((ConnEnd.mk true none).errReturned = true ∧
      (ConnEnd.mk true none).connValues = none) ∨
    ((ConnEnd.mk true none).errReturned = false ∧
      (ConnEnd.mk true none).connValues = some [(.tBool, .vBool true)]) :=
  handleConnection_finalize_iff_error [(.tBool, .vBool true)] [.ok true, .fail]
    ⟨true, none⟩ rfl

/-- C7: when the proxy is invoked with arguments the encoder refuses
(the marshalling loop fails), the completion is invoked exactly once —
with the zero values of the awaited return types and the encode
error — nothing is written to the transport (no wroteCall event), no
call id is allocated, and the registry is exactly as before, so no
pending entry exists for the call. -/
theorem proxy_encode_failure_rejects_only (draws : List Int)
    (writeErr : Option String) (fn : String) (args : List GoValue)
    (returnTypes : List GoType) (reg : Registry) (e : String)
    (h : marshalArgs args = .error e) :
    callRemoteFunc draws writeErr fn args returnTypes reg =
      ⟨[.completedErr (returnTypes.map zeroValue) e], reg⟩ := by
  simp [callRemoteFunc, h]

/-- Witness for C7: a proxy call whose only argument is a value
json.Marshal refuses (a channel). -/
theorem proxy_encode_failure_rejects_only_witness :
    callRemoteFunc [1] none "World" [.vUnencodable "chan int"] [.tStr] [] =
      ⟨[.completedErr [.vStr ""] "json: unsupported type: chan int"], []⟩ :=
  proxy_encode_failure_rejects_only [1] none "World" [.vUnencodable "chan int"]
    [.tStr] [] "json: unsupported type: chan int" rfl

/-- C8: when a dispatched method's declared last return is an error
and the invocation yields a non-nil error with message emsg, the reply
envelope carries e = emsg verbatim (no "autorpc:" prefix is added) and
an empty (omitted) d — the data returns are discarded — and the
iteration returns the method's own error. -/
theorem method_error_reply_envelope (m : APIMethod) (writeErr : Option String)
    (msg : RpcMessage) (reg : Registry) (inVals : List GoValue) (emsg : String)
    (hname : msg.funcName = m.name) (hcall : m.name ≠ "")
    (hlen : msg.args.length = m.inTypes.length)
    (hdec : decodeArgs m.inTypes msg.args 0 = .ok inVals)
    (hnz : m.outTypes.length > 0) (hout : m.outTypes.getLast? = some .tError)
    (hres : (m.impl inVals).getLast? = some (.vError emsg)) :
    (handle [(m.name, makeFnHandler m)] writeErr (.ok msg) reg).events =
      [.wroteReturn ⟨msg.callID, emsg, []⟩] ∧
    (handle [(m.name, makeFnHandler m)] writeErr (.ok msg) reg).ret =
      .err (.user emsg) := by
  have hc : msg.isCall = true := by
    simp [RpcMessage.isCall, hname, hcall]
  have hfn : lookupFn [(m.name, makeFnHandler m)] msg.funcName =
      some (makeFnHandler m) := by
    simp [lookupFn, hname]
  have hmk : makeFnHandler m msg.args =
      .ret ((m.impl inVals).dropLast) (some (.user emsg)) := by
    have hlc : ¬(msg.args.length ≠ m.inTypes.length) := by simp [hlen]
    simp only [makeFnHandler, if_neg hlc, hdec]
    rw [if_pos ⟨hnz, hout⟩, hres]
  simp [handle, hc, hfn, hmk, GoError.message]

/-- A concrete method Hello(int) (int, error) whose body reports the
user error "nope". -/
def helloMethod : APIMethod :=
  ⟨"Hello", [.tInt], [.tInt, .tError], fun _ => [.vInt 0, .vError "nope"]⟩

/-- Witness for C8 at a concrete call of helloMethod. -/
theorem method_error_reply_envelope_witness :
    (handle [("Hello", makeFnHandler helloMethod)] none
        (.ok ⟨2, "Hello", ["42"], "", []⟩) []).events =
      [.wroteReturn ⟨2, "nope", []⟩] ∧
    (handle [("Hello", makeFnHandler helloMethod)] none
        (.ok ⟨2, "Hello", ["42"], "", []⟩) []).ret = .err (.user "nope") :=
  method_error_reply_envelope helloMethod none ⟨2, "Hello", ["42"], "", []⟩ []
    [.vInt 42] "nope" rfl (by decide) rfl rfl (by decide) rfl rfl

/-- C9: a Request envelope naming a function with no installed inbound
handler makes the dispatch iteration write a reply envelope carrying
the request's call id and e = "autorpc: function not found" (the
Error() rendering of RPCError{Err: "function not found"}), leave the
registry untouched, and return that error to its caller. -/
theorem unknown_function_reply (fnH : List (String × FnHandler))
    (writeErr : Option String) (msg : RpcMessage) (reg : Registry)
    (hcall : msg.isCall = true) (hmiss : lookupFn fnH msg.funcName = none) :
    handle fnH writeErr (.ok msg) reg =
      ⟨[.wroteReturn ⟨msg.callID, "autorpc: function not found", []⟩], reg,
        .err (.rpcErr ⟨"function not found", none⟩)⟩ ∧
    (GoError.rpcErr ⟨"function not found", none⟩).message =
      "autorpc: function not found" := by
  have hm : RPCError.message ⟨"function not found", none⟩ =
      "autorpc: function not found" := rfl
  constructor
  · simp only [handle, hcall, if_true, hmiss, hm]
  · rfl

/-- Witness for C9: the envelope of spec scenario S3. -/
theorem unknown_function_reply_witness :
    handle [] none (.ok ⟨3, "Nope", [], "", []⟩) [] =
      ⟨[.wroteReturn ⟨3, "autorpc: function not found", []⟩], [],
        .err (.rpcErr ⟨"function not found", none⟩)⟩ ∧
    (GoError.rpcErr ⟨"function not found", none⟩).message =
      "autorpc: function not found" :=
  unknown_function_reply [] none ⟨3, "Nope", [], "", []⟩ [] (by decide) rfl

/-- The field scan never records a value field when no field carries
the value tag. -/
theorem scanLoop_no_value_tag (fields : List APIField) :
    ∀ (i : Nat) (rf vf1 rf1 : Option (Nat × APIField)),
      (∀ f ∈ fields, f.tag ≠ "value") →
      scanLoop fields i none rf = .ok (vf1, rf1) → vf1 = none := by
  induction fields with
  | nil =>
    intro i rf vf1 rf1 hno h
    simp only [scanLoop, Except.ok.injEq, Prod.mk.injEq] at h
    exact h.1.symm
  | cons f rest ih =>
    intro i rf vf1 rf1 hno h
    have hf : f.tag ≠ "value" := hno f (by simp)
    have hrest : ∀ g ∈ rest, g.tag ≠ "value" := fun g hg => hno g (by simp [hg])
    simp only [scanLoop, if_neg hf] at h
    by_cases hr : f.tag = "remote"
    · rw [if_pos hr] at h
      cases rf with
      | some prev => simp at h
      | none =>
        cases hexp : f.exported with
        | true =>
          rw [if_pos (by simp [hexp])] at h
          exact ih (i + 1) (some (i, f)) vf1 rf1 hrest h
        | false =>
          rw [if_neg (by simp [hexp])] at h
          simp at h
    · rw [if_neg hr] at h
      exact ih (i + 1) rf vf1 rf1 hrest h

/-- C10: when the API description has no field tagged value, the field
scan of CreateHandler records no value field, so the synthesized
setValue is the default func(interface{}) error { return nil }: for
every argument it returns nil (never a type-mismatch or missing-field
error), assigns nothing, and leaves the API description's field values
unchanged. -/
theorem setValue_no_value_field_noop (fields : List APIField)
    (vf rf : Option (Nat × APIField)) (v : GoValue) (st : APIState)
    (hno : ∀ f ∈ fields, f.tag ≠ "value")
    (hscan : scanLoop fields 0 none none = .ok (vf, rf)) :
    handlerSetValue vf v st = .ok st := by
  have hv : vf = none := scanLoop_no_value_tag fields 0 none vf rf hno hscan
  subst hv
  rfl

/-- Witness for C10: an API description whose only tagged field is the
remote record. -/
theorem setValue_no_value_field_noop_witness :
    handlerSetValue none (.vInt 5) [.vNull] = .ok [.vNull] :=
  setValue_no_value_field_noop [⟨"Remote", "remote", .tOther "R", true⟩] none
    (some (0, ⟨"Remote", "remote", .tOther "R", true⟩)) (.vInt 5) [.vNull]
    (by decide) rfl

end AutoRPC
